import Mathlib

/-!
Verification development for the `secure-storage` library
(`src/SecureStorage.ts`).  The TypeScript class `SecureStorage` is shallowly
embedded as pure state-passing Lean functions:

* platform primitives (Web Crypto `crypto.subtle`, `crypto.getRandomValues`,
  `JSON.stringify` / `JSON.parse`, `TextEncoder`) are modelled symbolically,
  each model carrying a doc comment explaining the abstraction;
* IndexedDB persistence is modelled, following the spec, as an external
  key-value collaborator: `put` / `get` / `getAll` over an in-memory map,
  with a per-database failure flag so that a rejected `open` can be studied;
* thrown `Error` objects are modelled by the inductive `JsError`, one
  constructor per distinct `throw new Error(...)` message in the source;
* `async` / `await` sequencing collapses to ordinary sequential evaluation
  (the spec assumes a single logical flow of control).
-/

namespace SecStore

/-- Byte strings are lists of naturals (each `getRandomValues` draw is
reduced mod 256, matching `Uint8Array` contents). -/
abbrev Bytes := List Nat

/-! ### The record codec: model of `JSON.stringify` / `JSON.parse` composed
with `TextEncoder` / `TextDecoder`.

`Json` is the type of JSON-serializable values (the domain of the generic
`T` in `encrypt<T>` / `decrypt<T>`; cyclic structures, which would make
`JSON.stringify` throw, are unrepresentable).  Arrays and objects are
represented as right-nested spines (`arrCons`/`arrNil`,
`objCons`/`objNil`) so that every function on `Json` is plainly
structurally recursive; `jarr` and `jobj` build them from Lean lists.
`encode` is an injective, self-delimiting serialization standing in for
the UTF-8 JSON text produced by `JSON.stringify`; `decode` is its partial
inverse, returning `none` on malformed bytes exactly as `JSON.parse`
throws on malformed text. -/
inductive Json where
  | null : Json
  | bool (b : Bool) : Json
  | num (n : Int) : Json
  | str (s : String) : Json
  | arrNil : Json
  | arrCons (head tail : Json) : Json
  | objNil : Json
  | objCons (key : String) (val tail : Json) : Json
deriving DecidableEq, Repr

/-- Build a JSON array from a list of values. -/
def jarr (vs : List Json) : Json := vs.foldr .arrCons .arrNil

/-- Build a JSON object from a list of (key, value) fields. -/
def jobj (fs : List (String × Json)) : Json :=
  fs.foldr (fun kv t => .objCons kv.1 kv.2 t) .objNil

/-- Serialized form of a string: length followed by the code points. -/
def encStrB (s : String) : Bytes := s.data.length :: s.data.map Char.toNat

/-- Read back a string serialized by `encStrB`. -/
def decStr (bs : Bytes) : Option (String × Bytes) :=
  match bs with
  | [] => none
  | n :: rest =>
    if n ≤ rest.length then
      some (String.mk ((rest.take n).map Char.ofNat), rest.drop n)
    else none

/-- Model of `JSON.stringify` followed by `TextEncoder.encode`. -/
def encode : Json → Bytes
  | .null => [0]
  | .bool false => [1, 0]
  | .bool true => [1, 1]
  | .num n => if n ≥ 0 then [2, n.toNat] else [3, (-n).toNat]
  | .str s => 4 :: encStrB s
  | .arrNil => [5]
  | .arrCons h t => 6 :: (encode h ++ encode t)
  | .objNil => [7]
  | .objCons k v t => 8 :: (encStrB k ++ (encode v ++ encode t))

/-- Depth of a JSON value; a fuel bound for the decoder. -/
def jsize : Json → Nat
  | .null => 1
  | .bool _ => 1
  | .num _ => 1
  | .str _ => 1
  | .arrNil => 1
  | .arrCons h t => 1 + max (jsize h) (jsize t)
  | .objNil => 1
  | .objCons _ v t => 1 + max (jsize v) (jsize t)

/-- Fuel-indexed decoder for one JSON value; inverse of `encode`. -/
def decodeAux : Nat → Bytes → Option (Json × Bytes)
  | 0, _ => none
  | _ + 1, [] => none
  | f + 1, t :: bs =>
    if t = 0 then some (.null, bs)
    else if t = 1 then
      match bs with
      | b :: bs2 =>
        if b = 0 then some (.bool false, bs2)
        else if b = 1 then some (.bool true, bs2) else none
      | [] => none
    else if t = 2 then
      match bs with
      | m :: bs2 => some (.num (Int.ofNat m), bs2)
      | [] => none
    else if t = 3 then
      match bs with
      | m :: bs2 => some (.num (-(m : Int)), bs2)
      | [] => none
    else if t = 4 then
      match decStr bs with
      | some (s, bs2) => some (.str s, bs2)
      | none => none
    else if t = 5 then some (.arrNil, bs)
    else if t = 6 then
      match decodeAux f bs with
      | some (h, bs2) =>
        match decodeAux f bs2 with
        | some (tl, bs3) => some (.arrCons h tl, bs3)
        | none => none
      | none => none
    else if t = 7 then some (.objNil, bs)
    else if t = 8 then
      match decStr bs with
      | some (k, bs2) =>
        match decodeAux f bs2 with
        | some (v, bs3) =>
          match decodeAux f bs3 with
          | some (tl, bs4) => some (.objCons k v tl, bs4)
          | none => none
        | none => none
      | none => none
    else none

/-- Model of `TextDecoder.decode` followed by `JSON.parse`: succeeds only
when the bytes are a complete serialization of one value. -/
def decode (bs : Bytes) : Option Json :=
  match decodeAux (bs.length + 1) bs with
  | some (v, []) => some v
  | _ => none

theorem strMk_data (s : String) : String.mk s.data = s := rfl

theorem decStr_encStrB (s : String) (rest : Bytes) :
    decStr (encStrB s ++ rest) = some (s, rest) := by
  have hlen : s.data.length = (s.data.map Char.toNat).length :=
    (List.length_map _ _).symm
  simp only [encStrB, List.cons_append, decStr]
  rw [if_pos (by simp)]
  rw [hlen, List.take_left, List.drop_left]
  rw [List.map_map]
  have : (Char.ofNat ∘ Char.toNat) = id := by
    funext c
    exact Char.ofNat_toNat c
  rw [this, List.map_id, strMk_data]

theorem jsize_pos : ∀ v : Json, 1 ≤ jsize v := by
  intro v
  cases v <;> simp [jsize]

theorem decodeAux_encode : ∀ (v : Json) (f : Nat) (rest : Bytes),
    jsize v ≤ f → decodeAux f (encode v ++ rest) = some (v, rest) := by
  intro v
  induction v with
  | null =>
    intro f rest h
    obtain ⟨g, rfl⟩ : ∃ g, f = g + 1 := ⟨f - 1, by simp [jsize] at h; omega⟩
    simp [encode, decodeAux]
  | bool b =>
    intro f rest h
    obtain ⟨g, rfl⟩ : ∃ g, f = g + 1 := ⟨f - 1, by simp [jsize] at h; omega⟩
    cases b <;> simp [encode, decodeAux]
  | num n =>
    intro f rest h
    obtain ⟨g, rfl⟩ : ∃ g, f = g + 1 := ⟨f - 1, by simp [jsize] at h; omega⟩
    by_cases hn : n ≥ 0
    · simp only [encode, if_pos hn, List.cons_append]
      simp [decodeAux, Int.toNat_of_nonneg hn]
    · have hn2 : (0 : Int) ≤ -n := by omega
      simp only [encode, if_neg hn, List.cons_append]
      simp [decodeAux, Int.toNat_of_nonneg hn2]
  | str s =>
    intro f rest h
    obtain ⟨g, rfl⟩ : ∃ g, f = g + 1 := ⟨f - 1, by simp [jsize] at h; omega⟩
    simp only [encode, List.cons_append]
    simp [decodeAux, decStr_encStrB]
  | arrNil =>
    intro f rest h
    obtain ⟨g, rfl⟩ : ∃ g, f = g + 1 := ⟨f - 1, by simp [jsize] at h; omega⟩
    simp [encode, decodeAux]
  | arrCons hd tl ihh iht =>
    intro f rest h
    simp only [jsize] at h
    obtain ⟨g, rfl⟩ : ∃ g, f = g + 1 := ⟨f - 1, by omega⟩
    have h1 : decodeAux g (encode hd ++ (encode tl ++ rest)) =
        some (hd, encode tl ++ rest) := ihh g _ (by omega)
    have h2 : decodeAux g (encode tl ++ rest) = some (tl, rest) :=
      iht g rest (by omega)
    simp only [encode, List.cons_append, List.append_assoc]
    simp [decodeAux, h1, h2]
  | objNil =>
    intro f rest h
    obtain ⟨g, rfl⟩ : ∃ g, f = g + 1 := ⟨f - 1, by simp [jsize] at h; omega⟩
    simp [encode, decodeAux]
  | objCons k v tl ihv iht =>
    intro f rest h
    simp only [jsize] at h
    obtain ⟨g, rfl⟩ : ∃ g, f = g + 1 := ⟨f - 1, by omega⟩
    have h1 : decodeAux g (encode v ++ (encode tl ++ rest)) =
        some (v, encode tl ++ rest) := ihv g _ (by omega)
    have h2 : decodeAux g (encode tl ++ rest) = some (tl, rest) :=
      iht g rest (by omega)
    simp only [encode, List.cons_append, List.append_assoc]
    simp [decodeAux, decStr_encStrB, h1, h2]

theorem jsize_le_len : ∀ v : Json, jsize v ≤ (encode v).length := by
  intro v
  induction v with
  | null => simp [jsize, encode]
  | bool b => cases b <;> simp [jsize, encode]
  | num n => by_cases hn : n ≥ 0 <;> simp [jsize, encode, hn]
  | str s => simp [jsize, encode, encStrB]
  | arrNil => simp [jsize, encode]
  | arrCons hd tl ihh iht =>
    have h1 := jsize_pos hd
    simp only [jsize, encode, List.length_cons, List.length_append]
    omega
  | objNil => simp [jsize, encode]
  | objCons k v tl ihv iht =>
    simp only [jsize, encode, List.length_cons, List.length_append,
      encStrB]
    omega

/-- Round trip of the record codec: `decode` inverts `encode`. -/
theorem decode_encode (v : Json) : decode (encode v) = some v := by
  have h : decodeAux ((encode v).length + 1) (encode v ++ []) =
      some (v, []) :=
    decodeAux_encode v _ [] (le_trans (jsize_le_len v) (Nat.le_succ _))
  simp only [List.append_nil] at h
  simp [decode, h]


/-! ### Crypto primitives (symbolic models of the Web Crypto API) -/

/-- Derived AES-GCM key.  `crypto.subtle.deriveKey` with PBKDF2-SHA256 is a
deterministic function of the password and the salt (with the fixed
iteration count and key length baked in by the source); the symbolic key
records exactly these derivation inputs.  The key is non-extractable, so no
other observation of it exists. -/
structure CKey where
  password : String
  salt : Bytes
  iters : Nat
  keyLen : Nat
deriving DecidableEq, Repr

/-- Embedding of the PBKDF2 `importKey` / `deriveKey` sequence of
`SecureStorage.initialize` (ITERATIONS = 100000, KEY_LENGTH = 256). -/
def deriveKey (password : String) (salt : Bytes) : CKey :=
  { password := password, salt := salt, iters := 100000, keyLen := 256 }

/-- Opaque AES-GCM ciphertext.  Symbolic model of authenticated encryption:
the blob determines the key and nonce it was sealed under and the sealed
plaintext, and can only be opened with that exact key and nonce. -/
structure Ciphertext where
  key : CKey
  iv : Bytes
  data : Bytes
deriving DecidableEq, Repr

/-- Model of `crypto.subtle.encrypt` with AES-GCM. -/
def subtleEncrypt (k : CKey) (iv : Bytes) (pt : Bytes) : Ciphertext :=
  { key := k, iv := iv, data := pt }

/-- Model of `crypto.subtle.decrypt` with AES-GCM: authenticated decryption
succeeds only under the sealing key and nonce (wrong key and tampering are
indistinguishable failures), returning the sealed plaintext. -/
def subtleDecrypt (k : CKey) (iv : Bytes) (ct : Ciphertext) : Option Bytes :=
  if ct.key = k ∧ ct.iv = iv then some ct.data else none

/-! ### Errors

One constructor per distinct `throw new Error(message)` site in
`SecureStorage.ts`; two thrown errors are distinguishable to a caller
exactly when their messages differ, i.e. when the constructors differ. -/
inductive JsError where
  /-- message `Impossible d initialiser le chiffrement` -/
  | initFailed : JsError
  /-- message `Impossible d acceder a la base de parametres de securite` -/
  | securityDbOpenFailed : JsError
  /-- message `Cle de chiffrement non initialisee` -/
  | keyNotInit : JsError
  /-- message `Echec du chiffrement des donnees` -/
  | encryptFailed : JsError
  /-- message `Echec du dechiffrement des donnees` -/
  | decryptFailed : JsError
  /-- message `Impossible de stocker les donnees chiffrees` -/
  | storeFailed : JsError
  /-- message `Impossible de recuperer les donnees dechiffrees` -/
  | retrieveFailed : JsError
  /-- message `Impossible d ouvrir la base de donnees (dbName)` -/
  | dbOpenFailed (dbName : String) : JsError
  /-- message `Cle de chiffrement actuelle non initialisee` -/
  | currentKeyNotInit : JsError
  /-- message `Impossible de changer le mot de passe` -/
  | changePasswordFailed : JsError
deriving DecidableEq, Repr

/-! ### Persistence collaborator and program state -/

/-- Persisted record shape `{key, encryptedData, iv, timestamp}` used by
`storeEncrypted` (the object-store key path is `key`). -/
structure StoredRecord where
  key : String
  encryptedData : Ciphertext
  iv : Bytes
  timestamp : Nat
deriving DecidableEq, Repr

/-- Combined state of one `SecureStorage` instance and its environment:

* `masterKey` — the private `masterKey : CryptoKey | null` field;
* `params` — the single `{id: "salt", value}` record of the dedicated
  `SecureStorageParams` IndexedDB database;
* `records` — all user records, addressed by (database, store, key);
* `dbFails` — names of IndexedDB databases whose `open` request rejects
  (models the collaborator-unavailable failure mode);
* `tape`, `rngCtr` — the random source: call number `c` of
  `crypto.getRandomValues` returns bytes `tape c 0 % 256, tape c 1 % 256, …`;
* `time` — logical clock read by `new Date().getTime()`. -/
structure SecureState where
  masterKey : Option CKey
  params : Option Bytes
  records : List (String × String × StoredRecord)
  dbFails : List String
  tape : Nat → Nat → Nat
  rngCtr : Nat
  time : Nat

/-- Bytes produced by random draw number `c` when asked for 12 bytes (the
IV_LENGTH = 12 nonce). -/
def nonceDraw (tape : Nat → Nat → Nat) (c : Nat) : Bytes :=
  (List.range 12).map (fun j => tape c j % 256)

/-- Bytes produced by random draw number `c` when asked for 16 bytes (the
SALT_LENGTH = 16 salt). -/
def saltDraw (tape : Nat → Nat → Nat) (c : Nat) : Bytes :=
  (List.range 16).map (fun j => tape c j % 256)

/-- Model of `crypto.getRandomValues(new Uint8Array(len))`: returns `len`
fresh random bytes and advances the random source. -/
def getRandomValues (len : Nat) (st : SecureState) : Bytes × SecureState :=
  ((List.range len).map (fun j => st.tape st.rngCtr j % 256),
    { st with rngCtr := st.rngCtr + 1 })

/-- Lookup in the user-record store: `store.get(key)` on database `db`,
object store `storeName`. -/
def getRecord (db storeName key : String)
    (recs : List (String × String × StoredRecord)) : Option StoredRecord :=
  (recs.find? (fun e =>
    e.1 = db ∧ e.2.1 = storeName ∧ e.2.2.key = key)).map (fun e => e.2.2)

/-- Model of `store.getAll()` on one object store. -/
def getAllRecords (db storeName : String)
    (recs : List (String × String × StoredRecord)) : List StoredRecord :=
  (recs.filter (fun e => e.1 = db ∧ e.2.1 = storeName)).map (fun e => e.2.2)

/-- Model of `store.put(record)` with key path `key`: replaces the record
with the same key, if any, and stores the new one. -/
def putRecord (db storeName : String) (r : StoredRecord)
    (recs : List (String × String × StoredRecord)) :
    List (String × String × StoredRecord) :=
  recs.filter (fun e => ¬(e.1 = db ∧ e.2.1 = storeName ∧ e.2.2.key = r.key))
    ++ [(db, storeName, r)]

/-! ### The `SecureStorage` operations -/

/-- Embedding of the private `openSecurityDb`: opening the fixed
`SecureStorageParams` database, which rejects when that database is listed
as failing. -/
def openSecurityDb (st : SecureState) : Except JsError Unit :=
  if "SecureStorageParams" ∈ st.dbFails then .error .securityDbOpenFailed
  else .ok ()

/-- Embedding of the private `saveSecurityParams(salt)`: open the security
database and `put({id: "salt", value: salt})`, overwriting the single
persisted salt record. -/
def saveSecurityParams (salt : Bytes) (st : SecureState) :
    Except JsError SecureState :=
  match openSecurityDb st with
  | .error e => .error e
  | .ok _ => .ok { st with params := some salt }

/-- Embedding of the private `getSecurityParams()`: `try` to open the
security database and read the `salt` record, returning `saltObj?.value ||
null`; any failure is caught and reported as `null` (no salt).  Note that
no other method of the source ever calls this function. -/
def getSecurityParams (st : SecureState) : Option Bytes :=
  if "SecureStorageParams" ∈ st.dbFails then none else st.params

/-- Embedding of the private `initialize(password, providedSalt?)` (the
body of the constructor).  The salt is `providedSalt ||
crypto.getRandomValues(new Uint8Array(16))`; the master key derived from
the password and that salt is installed, and the salt is persisted.  The
`catch` wraps any failure (here: a failing save) into the generic
initialization error; the already-installed key is not rolled back. -/
def initStorage (password : String) (providedSalt : Option Bytes)
    (st : SecureState) : Except JsError Unit × SecureState :=
  let (salt, st1) :=
    match providedSalt with
    | some s => (s, st)
    | none => getRandomValues 16 st
  let key := deriveKey password salt
  let st2 := { st1 with masterKey := some key }
  match saveSecurityParams salt st2 with
  | .ok st3 => (.ok (), st3)
  | .error _ => (.error .initFailed, st2)

/-- Embedding of `encrypt<T>(data)`: requires the master key, serializes
the value (`JSON.stringify` + `TextEncoder`), draws a fresh 12-byte IV from
`crypto.getRandomValues`, and seals with AES-GCM.  In the model the
serializer and the cipher are total, so the `catch` branch producing the
generic encryption error is unreachable. -/
def encrypt (data : Json) (st : SecureState) :
    Except JsError (Ciphertext × Bytes) × SecureState :=
  match st.masterKey with
  | none => (.error .keyNotInit, st)
  | some key =>
    let dataBuffer := encode data
    let (iv, st1) := getRandomValues 12 st
    (.ok (subtleEncrypt key iv dataBuffer, iv), st1)

/-- Embedding of `decrypt<T>(encryptedData, iv)`: requires the master key,
opens the AES-GCM blob, then parses the plaintext (`TextDecoder` +
`JSON.parse`).  Both the authentication failure of `crypto.subtle.decrypt`
and a `JSON.parse` failure are caught by the same `catch` and become the
single generic decryption error. -/
def decrypt (ct : Ciphertext) (iv : Bytes) (st : SecureState) :
    Except JsError Json × SecureState :=
  match st.masterKey with
  | none => (.error .keyNotInit, st)
  | some key =>
    match subtleDecrypt key iv ct with
    | none => (.error .decryptFailed, st)
    | some bytes =>
      match decode bytes with
      | none => (.error .decryptFailed, st)
      | some v => (.ok v, st)

/-- Embedding of the private `openDatabase(dbName, storeName)`: rejects
exactly when the database name is listed as failing. -/
def openDatabase (dbName : String) (st : SecureState) : Except JsError Unit :=
  if dbName ∈ st.dbFails then .error (.dbOpenFailed dbName) else .ok ()

/-- Embedding of `storeEncrypted(dbName, storeName, key, data)`: encrypt,
open the database, and `put({key, encryptedData, iv, timestamp})`.  Any
inner failure is caught and rethrown as the generic store error. -/
def storeEncrypted (dbName storeName key : String) (data : Json)
    (st : SecureState) : Except JsError Unit × SecureState :=
  match encrypt data st with
  | (.error _, st1) => (.error .storeFailed, st1)
  | (.ok (ct, iv), st1) =>
    match openDatabase dbName st1 with
    | .error _ => (.error .storeFailed, st1)
    | .ok _ =>
      let r : StoredRecord :=
        { key := key, encryptedData := ct, iv := iv, timestamp := st1.time }
      (.ok (), { st1 with
        records := putRecord dbName storeName r st1.records,
        time := st1.time + 1 })

/-- Embedding of `retrieveDecrypted(dbName, storeName, key)`: open the
database and `get(key)`; a missing record returns `null`; otherwise
decrypt.  Any inner failure (database open, decryption, parsing) is caught
and rethrown as the generic retrieval error. -/
def retrieveDecrypted (dbName storeName key : String) (st : SecureState) :
    Except JsError (Option Json) × SecureState :=
  match openDatabase dbName st with
  | .error _ => (.error .retrieveFailed, st)
  | .ok _ =>
    match getRecord dbName storeName key st.records with
    | none => (.ok none, st)
    | some r =>
      match decrypt r.encryptedData r.iv st with
      | (.error _, st1) => (.error .retrieveFailed, st1)
      | (.ok v, st1) => (.ok (some v), st1)

/-- Embedding of the inner re-encryption loop of `changePassword`: for each
captured item, set `this.masterKey = oldKey`, decrypt the item, and
`storeEncrypted` the plaintext (which encrypts under whatever
`this.masterKey` currently holds). -/
def migrateItems (oldKey : CKey) (dbName storeName : String)
    (items : List StoredRecord) (st : SecureState) :
    Except JsError Unit × SecureState :=
  match items with
  | [] => (.ok (), st)
  | item :: rest =>
    let st1 := { st with masterKey := some oldKey }
    match decrypt item.encryptedData item.iv st1 with
    | (.error e, st2) => (.error e, st2)
    | (.ok v, st2) =>
      match storeEncrypted dbName storeName item.key v st2 with
      | (.error e, st3) => (.error e, st3)
      | (.ok _, st3) => migrateItems oldKey dbName storeName rest st3

/-- Embedding of one iteration of the `for (const storeName of storeNames)`
loop of `changePassword`: open the database, `getAll()` the store, install
the key derived from the new password (persisting a fresh salt), then
re-encrypt every captured item. -/
def processStore (oldKey : CKey) (newPassword dbName storeName : String)
    (st : SecureState) : Except JsError Unit × SecureState :=
  match openDatabase dbName st with
  | .error e => (.error e, st)
  | .ok _ =>
    let allItems := getAllRecords dbName storeName st.records
    match initStorage newPassword none st with
    | (.error e, st1) => (.error e, st1)
    | (.ok _, st1) => migrateItems oldKey dbName storeName allItems st1

/-- The collection loop of `changePassword`, processing store names in the
provided order; the first failure aborts the loop. -/
def changePasswordLoop (oldKey : CKey) (newPassword dbName : String)
    (storeNames : List String) (st : SecureState) :
    Except JsError Unit × SecureState :=
  match storeNames with
  | [] => (.ok (), st)
  | storeName :: rest =>
    match processStore oldKey newPassword dbName storeName st with
    | (.error e, st1) => (.error e, st1)
    | (.ok _, st1) => changePasswordLoop oldKey newPassword dbName rest st1

/-- Embedding of `changePassword(newPassword, dbName, storeNames)`: capture
the current master key as `oldKey`, failing immediately when none is set;
run the per-store migration loop inside a `try` whose `catch` rethrows any
failure as the single generic change-password error. -/
def changePassword (newPassword dbName : String) (storeNames : List String)
    (st : SecureState) : Except JsError Unit × SecureState :=
  match st.masterKey with
  | none => (.error .currentKeyNotInit, st)
  | some oldKey =>
    match changePasswordLoop oldKey newPassword dbName storeNames st with
    | (.error _, st1) => (.error .changePasswordFailed, st1)
    | (.ok _, st1) => (.ok (), st1)

/-- Sequence of `encrypt` calls, collecting the (ciphertext, nonce) results
of the successful ones; used to state nonce-freshness across N seal calls. -/
def encryptSeq (vs : List Json) (st : SecureState) :
    List (Ciphertext × Bytes) × SecureState :=
  match vs with
  | [] => ([], st)
  | v :: rest =>
    match encrypt v st with
    | (.ok p, st1) =>
      let (ps, st2) := encryptSeq rest st1
      (p :: ps, st2)
    | (.error _, st1) => encryptSeq rest st1

/-! ### Helper lemmas -/

theorem encrypt_ok (v : Json) (st : SecureState) (k : CKey)
    (h : st.masterKey = some k) :
    encrypt v st =
      (.ok (subtleEncrypt k (nonceDraw st.tape st.rngCtr) (encode v),
        nonceDraw st.tape st.rngCtr),
       { st with rngCtr := st.rngCtr + 1 }) := by
  simp [encrypt, h, getRandomValues, nonceDraw]

theorem encryptSeq_nonces (vs : List Json) :
    ∀ (st : SecureState) (k : CKey), st.masterKey = some k →
    ((encryptSeq vs st).1.map Prod.snd) =
      (List.range vs.length).map (fun i => nonceDraw st.tape (st.rngCtr + i)) := by
  induction vs with
  | nil =>
    intro st k h
    simp [encryptSeq]
  | cons v vs ih =>
    intro st k h
    have h1 : ({ st with rngCtr := st.rngCtr + 1 } : SecureState).masterKey
        = some k := h
    simp only [encryptSeq, encrypt_ok v st k h, List.map_cons]
    rw [ih _ k h1]
    simp only [List.length_cons, List.range_succ_eq_map, List.map_cons,
      List.map_map]
    congr 1
    apply List.map_congr_left
    intro i _
    simp only [Function.comp_apply, Nat.succ_eq_add_one]
    congr 1
    omega

/-! ### Concrete fixtures for witnesses, counterexamples and
code-evaluation theorems -/

/-- Deterministic random tape for fixtures: random draw number `c` yields
bytes all equal to `c % 256` (so the first three 12-byte draws are
pairwise distinct). -/
def tapeC : Nat → Nat → Nat := fun c _ => c

/-- A persisted 16-byte salt. -/
def salt1 : Bytes := List.replicate 16 9

/-- Master key of a store opened with password `P1` and salt `salt1`. -/
def key1 : CKey := deriveKey "P1" salt1

/-- A 12-byte IV distinct from everything `tapeC` produces early. -/
def ivA : Bytes := List.replicate 12 7

/-- A record holding the value `"X"` sealed under `key1`. -/
def recA : StoredRecord :=
  { key := "a", encryptedData := subtleEncrypt key1 ivA (encode (.str "X")),
    iv := ivA, timestamp := 0 }

/-- Store state with one record in collection `coll` of database `db`,
master key installed for password `P1`. -/
def stOne : SecureState :=
  { masterKey := some key1, params := some salt1,
    records := [("db", "coll", recA)], dbFails := [], tape := tapeC,
    rngCtr := 0, time := 1 }

/-- Store state with a persisted salt but the key not yet derived. -/
def stPersist : SecureState :=
  { masterKey := none, params := some salt1, records := [], dbFails := [],
    tape := tapeC, rngCtr := 0, time := 0 }

/-- A record sealed under a key that is NOT `key1` (decryption under
`key1` fails authentication). -/
def recBad : StoredRecord :=
  { key := "b",
    encryptedData := subtleEncrypt (deriveKey "other" salt1) ivA (encode .null),
    iv := ivA, timestamp := 0 }

/-- A record in a second collection, sealed under `key1`, that would
migrate successfully. -/
def recC : StoredRecord :=
  { key := "c", encryptedData := subtleEncrypt key1 ivA (encode .null),
    iv := ivA, timestamp := 0 }

/-- State with collection `c1` holding an undecryptable record and
collection `c2` holding a migratable one. -/
def stTwo : SecureState :=
  { masterKey := some key1, params := some salt1,
    records := [("db", "c1", recBad), ("db", "c2", recC)], dbFails := [],
    tape := tapeC, rngCtr := 0, time := 1 }

/-- A record whose sealed plaintext `[99]` is not valid serialized JSON
(`JSON.parse` fails on it), sealed under `key1`. -/
def recMalformed : StoredRecord :=
  { key := "m", encryptedData := subtleEncrypt key1 ivA [99], iv := ivA,
    timestamp := 0 }

/-- State holding one wrong-key record (in `cw`) and one
malformed-plaintext record (in `cm`), with the security database failing. -/
def stBad : SecureState :=
  { masterKey := some key1, params := some salt1,
    records := [("db", "cw", recBad), ("db", "cm", recMalformed)],
    dbFails := ["SecureStorageParams"], tape := tapeC, rngCtr := 0,
    time := 1 }

/-! ### Claim theorems -/

/-- Claim C4: for every JSON-serializable value and every state with an
initialized master key, decrypting the output of encrypting the value
(with the ciphertext and nonce produced by that encryption, under the same
key) yields the value unchanged — the round trip through encode, seal,
open, decode is the identity. -/
theorem claim_C4_encrypt_decrypt_roundtrip (v : Json) (st : SecureState)
    (k : CKey) (h : st.masterKey = some k) :
    ∃ ct iv st1, encrypt v st = (.ok (ct, iv), st1) ∧
      (decrypt ct iv st1).1 = .ok v := by
  refine ⟨_, _, _, encrypt_ok v st k h, ?_⟩
  simp [decrypt, h, subtleDecrypt, subtleEncrypt, decode_encode]

/-- Witness for claim C4 at a concrete store state and value. -/
theorem claim_C4_witness :
    stOne.masterKey = some key1 ∧
    (∃ ct iv st1, encrypt (.str "X") stOne = (.ok (ct, iv), st1) ∧
      (decrypt ct iv st1).1 = .ok (.str "X")) :=
  ⟨rfl, claim_C4_encrypt_decrypt_roundtrip (.str "X") stOne key1 rfl⟩

/-- Claim C5: every encryption call draws a fresh 12-byte nonce from the
random source, by an expression independent of the plaintext; across N
sequential calls whose random draws are pairwise distinct (the rendering
of cryptographic randomness in this model), the N produced nonces are
pairwise distinct and the produced (ciphertext, nonce) pairs are pairwise
distinct, in particular for repeated encryptions of one plaintext. -/
theorem claim_C5_nonces_fresh_distinct (st : SecureState) (k : CKey)
    (vs : List Json) (h : st.masterKey = some k)
    (hdist : (List.range vs.length).Pairwise
      (fun i j => nonceDraw st.tape (st.rngCtr + i) ≠
        nonceDraw st.tape (st.rngCtr + j))) :
    (∀ v : Json, (encrypt v st).1 =
      .ok (subtleEncrypt k (nonceDraw st.tape st.rngCtr) (encode v),
        nonceDraw st.tape st.rngCtr)) ∧
    (nonceDraw st.tape st.rngCtr).length = 12 ∧
    ((encryptSeq vs st).1).Pairwise (fun a b => a.2 ≠ b.2 ∧ a ≠ b) := by
  refine ⟨fun v => by rw [encrypt_ok v st k h], by simp [nonceDraw], ?_⟩
  have hmap := encryptSeq_nonces vs st k h
  have h2 : ((encryptSeq vs st).1.map Prod.snd).Pairwise (· ≠ ·) := by
    rw [hmap, List.pairwise_map]
    exact hdist
  have h3 : ((encryptSeq vs st).1).Pairwise (fun a b => a.2 ≠ b.2) :=
    (List.pairwise_map).mp h2
  exact h3.imp (fun hab => ⟨hab, fun he => hab (congrArg Prod.snd he)⟩)

/-- Witness for claim C5: three concrete seal calls under `stOne`. -/
theorem claim_C5_witness :
    stOne.masterKey = some key1 ∧
    (List.range ([Json.null, Json.null, Json.bool true].length)).Pairwise
      (fun i j => nonceDraw stOne.tape (stOne.rngCtr + i) ≠
        nonceDraw stOne.tape (stOne.rngCtr + j)) ∧
    ((encryptSeq [Json.null, Json.null, Json.bool true] stOne).1).Pairwise
      (fun a b => a.2 ≠ b.2 ∧ a ≠ b) :=
  ⟨rfl, by decide,
    (claim_C5_nonces_fresh_distinct stOne key1
      [Json.null, Json.null, Json.bool true] rfl (by decide)).2.2⟩

/-- Claim C6: changePassword invoked while no master key is installed
fails immediately with the distinct current-key error and returns the
state entirely unchanged — no record, salt or key mutation. -/
theorem claim_C6_changePassword_no_key (npw db : String) (cs : List String)
    (st : SecureState) (h : st.masterKey = none) :
    changePassword npw db cs st = (.error .currentKeyNotInit, st) := by
  simp [changePassword, h]

/-- Witness for claim C6 at a concrete uninitialized store. -/
theorem claim_C6_witness :
    stPersist.masterKey = none ∧
    changePassword "new" "db" ["coll"] stPersist =
      (.error .currentKeyNotInit, stPersist) :=
  ⟨rfl, claim_C6_changePassword_no_key "new" "db" ["coll"] stPersist rfl⟩

/-- Claim C7: retrieving a key under which nothing was ever stored returns
null (absent) and leaves the state unchanged, raising no error, whenever
the database collaborator is reachable. -/
theorem claim_C7_retrieve_miss (db coll key : String) (st : SecureState)
    (hdb : db ∉ st.dbFails)
    (hrec : getRecord db coll key st.records = none) :
    retrieveDecrypted db coll key st = (.ok none, st) := by
  simp [retrieveDecrypted, openDatabase, hdb, hrec]

/-- Witness for claim C7: a key absent from the concrete store. -/
theorem claim_C7_witness :
    ("db" ∉ stOne.dbFails) ∧
    getRecord "db" "coll" "zz" stOne.records = none ∧
    retrieveDecrypted "db" "coll" "zz" stOne = (.ok none, stOne) :=
  ⟨by decide, by decide,
    claim_C7_retrieve_miss "db" "coll" "zz" stOne (by decide) (by decide)⟩

/-- Claim C9: changePassword over the empty collection list succeeds and
is a complete no-op: the returned state is the input state, so the master
key, persisted salt, every record, the random counter and the clock are
unchanged, and no key is derived from the new password. -/
theorem claim_C9_empty_list_noop (npw db : String) (st : SecureState)
    (k : CKey) (h : st.masterKey = some k) :
    changePassword npw db [] st = (.ok (), st) := by
  simp [changePassword, h, changePasswordLoop]

/-- Witness for claim C9 at the concrete one-record store. -/
theorem claim_C9_witness :
    stOne.masterKey = some key1 ∧
    changePassword "P2" "db" [] stOne = (.ok (), stOne) :=
  ⟨rfl, claim_C9_empty_list_noop "P2" "db" stOne key1 rfl⟩

/-- Claim C10: a successful initialization persists exactly the salt used
for key derivation under the fixed `salt` record, overwriting any previous
one; in particular with an explicitly supplied salt, that salt is written
and the installed key is derived from it. -/
theorem claim_C10_salt_persisted (pw : String) (pSalt : Option Bytes)
    (st : SecureState) (h : "SecureStorageParams" ∉ st.dbFails) :
    (∀ s, pSalt = some s → initStorage pw pSalt st =
      (.ok (),
        { st with
          masterKey := some (deriveKey pw s)
          params := some s })) ∧
    ((initStorage pw pSalt st).1 = .ok () →
      ∃ s, (initStorage pw pSalt st).2.params = some s ∧
        (initStorage pw pSalt st).2.masterKey = some (deriveKey pw s)) := by
  constructor
  · rintro s rfl
    simp [initStorage, saveSecurityParams, openSecurityDb, h]
  · intro hok
    cases pSalt with
    | some s =>
      exact ⟨s, by simp [initStorage, saveSecurityParams, openSecurityDb, h]⟩
    | none =>
      refine ⟨saltDraw st.tape st.rngCtr, ?_⟩
      simp [initStorage, getRandomValues, saveSecurityParams,
        openSecurityDb, h, saltDraw]

/-- Witness for claim C10: a concrete store constructed with an explicit
salt. -/
theorem claim_C10_witness :
    ("SecureStorageParams" ∉ stOne.dbFails) ∧
    initStorage "P1" (some salt1) stOne =
      (.ok (),
        { stOne with
          masterKey := some (deriveKey "P1" salt1)
          params := some salt1 }) :=
  ⟨by decide,
    (claim_C10_salt_persisted "P1" (some salt1) stOne (by decide)).1 salt1 rfl⟩

/-- Claim C1, evaluated at the failing input (code bug): on the one-record
store, changePassword succeeds and persists a fresh salt, but the record
is re-encrypted under the OLD key (`this.masterKey` is still `oldKey` when
`storeEncrypted` encrypts), which differs from the key derived from the
new password and the newly persisted salt; a store set up with the new
password and that salt fails to retrieve the value, while the old key
still decrypts it. -/
theorem claim_C1_reencrypts_under_old_key :
    (changePassword "P2" "db" ["coll"] stOne).1 = .ok () ∧
    (getRecord "db" "coll" "a"
      (changePassword "P2" "db" ["coll"] stOne).2.records).map
        (fun r => r.encryptedData.key) = some key1 ∧
    (changePassword "P2" "db" ["coll"] stOne).2.params =
      some (List.replicate 16 0) ∧
    key1 ≠ deriveKey "P2" (List.replicate 16 0) ∧
    (retrieveDecrypted "db" "coll" "a"
      { (changePassword "P2" "db" ["coll"] stOne).2 with
        masterKey := some (deriveKey "P2" (List.replicate 16 0)) }).1 =
      .error .retrieveFailed ∧
    (retrieveDecrypted "db" "coll" "a"
      { (changePassword "P2" "db" ["coll"] stOne).2 with
        masterKey := some key1 }).1 = .ok (some (.str "X")) :=
  ⟨rfl, rfl, rfl, by decide, rfl, rfl⟩

/-- Claim C2, evaluated at the failing input (code bug): with a salt
already persisted, initialization with no supplied salt never consults the
salt store (`getSecurityParams` is dead code): it generates a fresh random
salt, overwrites the persisted one, and derives the key from the fresh
salt, not the persisted salt. -/
theorem claim_C2_ignores_persisted_salt :
    getSecurityParams stPersist = some salt1 ∧
    (initStorage "pw" none stPersist).1 = .ok () ∧
    (initStorage "pw" none stPersist).2.params =
      some (List.replicate 16 0) ∧
    (initStorage "pw" none stPersist).2.masterKey =
      some (deriveKey "pw" (List.replicate 16 0)) ∧
    deriveKey "pw" (List.replicate 16 0) ≠ deriveKey "pw" salt1 :=
  ⟨rfl, rfl, rfl, rfl, by decide⟩

/-- Claim C3 counterexample: with collection `c1` holding an
undecryptable record and `c2` a migratable one, the call reports the
single aggregate failure but `c2` is never attempted: its record is
bit-identical afterwards, whereas processing `c2` alone rewrites it. -/
theorem claim_C3_counterexample :
    (changePassword "P2" "db" ["c1", "c2"] stTwo).1 =
      .error .changePasswordFailed ∧
    getRecord "db" "c2" "c"
      (changePassword "P2" "db" ["c1", "c2"] stTwo).2.records = some recC ∧
    getRecord "db" "c2" "c"
      (changePassword "P2" "db" ["c2"] stTwo).2.records ≠ some recC :=
  ⟨rfl, rfl, by decide⟩

/-- Claim C3 amended: a failure while processing one collection aborts the
whole changePassword call at that point — the remaining collections are
not attempted (the result is independent of the rest of the list) — and
the caller sees the single aggregate change-password error. -/
theorem claim_C3_first_failure_aborts (npw db c : String)
    (rest : List String) (st : SecureState) (oldKey : CKey) (e : JsError)
    (st1 : SecureState) (hk : st.masterKey = some oldKey)
    (h : processStore oldKey npw db c st = (.error e, st1)) :
    changePassword npw db (c :: rest) st =
      (.error .changePasswordFailed, st1) := by
  simp [changePassword, hk, changePasswordLoop, h]

/-- Witness for the amended claim C3 at the concrete two-collection
store. -/
theorem claim_C3_witness :
    stTwo.masterKey = some key1 ∧
    processStore key1 "P2" "db" "c1" stTwo =
      (.error .decryptFailed, (processStore key1 "P2" "db" "c1" stTwo).2) ∧
    changePassword "P2" "db" ["c1", "c2"] stTwo =
      (.error .changePasswordFailed,
        (processStore key1 "P2" "db" "c1" stTwo).2) :=
  ⟨rfl, rfl,
    claim_C3_first_failure_aborts "P2" "db" "c1" ["c2"] stTwo key1
      .decryptFailed _ rfl rfl⟩

/-- Claim C8 counterexample: a wrong-key record (a DecryptionError in the
taxonomy of the spec) and a malformed-plaintext record (a
SerializationError) surface from retrieve as the SAME error value, so the
two kinds are not distinguishable by the caller. -/
theorem claim_C8_counterexample :
    (retrieveDecrypted "db" "cw" "b" stBad).1 = .error .retrieveFailed ∧
    (retrieveDecrypted "db" "cm" "m" stBad).1 = .error .retrieveFailed ∧
    (retrieveDecrypted "db" "cw" "b" stBad).1 =
      (retrieveDecrypted "db" "cm" "m" stBad).1 :=
  ⟨rfl, rfl, rfl⟩

/-- Claim C8 amended: failures are surfaced as errors, never silently
swallowed, and a salt-load failure degrades to the absent salt; but
retrieve reports wrong-key decryption failure and malformed-plaintext
parse failure through the same single generic retrieval error, so the
failure kinds of the taxonomy are not distinguishable from its result. -/
theorem claim_C8_surfaced_not_distinguished (st st2 : SecureState)
    (db coll key : String) (r : StoredRecord) (k : CKey)
    (hdb : db ∉ st.dbFails)
    (hrec : getRecord db coll key st.records = some r)
    (hk : st.masterKey = some k)
    (hbad : subtleDecrypt k r.iv r.encryptedData = none ∨
      ∃ bs, subtleDecrypt k r.iv r.encryptedData = some bs ∧
        decode bs = none)
    (hsec : "SecureStorageParams" ∈ st2.dbFails) :
    (retrieveDecrypted db coll key st).1 = .error .retrieveFailed ∧
    getSecurityParams st2 = none := by
  constructor
  · rcases hbad with hb | ⟨bs, hb1, hb2⟩
    · simp [retrieveDecrypted, openDatabase, hdb, hrec, decrypt, hk, hb]
    · simp [retrieveDecrypted, openDatabase, hdb, hrec, decrypt, hk, hb1,
        hb2]
  · simp [getSecurityParams, hsec]

/-- Witness for the amended claim C8 at the concrete corrupted store. -/
theorem claim_C8_witness :
    ("db" ∉ stBad.dbFails) ∧
    getRecord "db" "cw" "b" stBad.records = some recBad ∧
    stBad.masterKey = some key1 ∧
    subtleDecrypt key1 recBad.iv recBad.encryptedData = none ∧
    ("SecureStorageParams" ∈ stBad.dbFails) ∧
    ((retrieveDecrypted "db" "cw" "b" stBad).1 = .error .retrieveFailed ∧
      getSecurityParams stBad = none) :=
  ⟨by decide, rfl, rfl, by decide, by decide,
    claim_C8_surfaced_not_distinguished stBad stBad "db" "cw" "b" recBad
      key1 (by decide) rfl rfl (Or.inl (by decide)) (by decide)⟩

end SecStore
